import Mathlib

/-!
Verification of the Signal MCP server's encrypted database access layer
(`src/bundle-build/server/signal-db.js`) against its natural-language
specification.

The JavaScript source is shallowly embedded: SQL result rows become Lean
structures, SQL queries over the two tables become list operations
(filter / sort / limit / offset with SQLite semantics), JS truthiness
(`x || y`, `if (x)`) is modelled explicitly on `Option` values, and the
external Node primitives (PBKDF2, AES-128-CBC block function, the SQLite
engine, the macOS `security` command) become parameters or environment
records.  Machine integers do not overflow in any modelled computation
(timestamps and byte values), so `Nat`/`Int` are used directly.
-/

namespace SignalSpec

/-! ## JavaScript truthiness helpers

`jsTruthyStr o` models `if (x)` for a JS value that is either a string or
`null`/`undefined` (`none`): the empty string and absent values are falsy.
`jsOrStr` models `x || y` for two such values (returns the second operand
verbatim when the first is falsy).  `jsOrDflt` models `x || "d"` with a
string default.  `jsTruthyNat`/`jsOrInt` are the numeric analogues, where
the number `0` is falsy. -/

def jsTruthyStr : Option String → Bool
  | some s => !s.isEmpty
  | none => false

def jsOrStr (a b : Option String) : Option String :=
  if jsTruthyStr a then a else b

def jsOrDflt (a : Option String) (d : String) : String :=
  match a with
  | some s => if s.isEmpty then d else s
  | none => d

def jsTruthyNat : Option Nat → Bool
  | some n => n != 0
  | none => false

def jsTruthyInt : Option Int → Bool
  | some n => n != 0
  | none => false

def jsOrInt (a : Option Int) (b : Int) : Int :=
  match a with
  | some x => if x ≠ 0 then x else b
  | none => b

/-! ## Data model: SQL rows and parsed JSON payloads

Rows mirror the columns selected by `signal-db.js` from the
`conversations` and `messages` tables.  Nullable columns are `Option`s.
The `json` columns hold a JSON-ish auxiliary payload; the embedding stores
the *parsed* payload (`none` models both a NULL column and a
`JSON.parse` failure, which the source treats identically by swallowing
the parse error). -/

/-- Parsed auxiliary JSON payload of a `conversations` row: the fields
`signal-db.js` reads from it (`name`, `profileName`, `groupName`). -/
structure ConvJson where
  name : Option String
  profileName : Option String
  groupName : Option String
  deriving Repr, DecidableEq

/-- A row of the `conversations` table, as selected by `signal-db.js`
(`id, serviceId, name, profileName, e164 as number, type, json`). -/
structure ConversationRow where
  id : String
  serviceId : Option String
  name : Option String
  profileName : Option String
  number : Option String
  type : String
  json : Option ConvJson
  deriving Repr, DecidableEq

/-- A reaction object passed through verbatim from the message's JSON
payload (`jsonLoaded.reactions`). -/
structure Reaction where
  emoji : Option String
  fromId : Option String
  targetTimestamp : Option Int
  deriving Repr, DecidableEq

/-- Parsed `quote` object of a message's JSON payload. -/
structure QuoteJson where
  text : Option String
  deriving Repr, DecidableEq

/-- Parsed `sticker` object of a message's JSON payload. -/
structure StickerJson where
  emoji : Option String
  packId : Option String
  deriving Repr, DecidableEq

/-- Parsed auxiliary JSON payload of a `messages` row: the fields
`formatMessage` reads (`reactions`, `quote`, `sticker`). -/
structure MsgJson where
  reactions : Option (List Reaction)
  quote : Option QuoteJson
  sticker : Option StickerJson
  deriving Repr, DecidableEq

/-- A row of the `messages` table, as selected by `signal-db.js`
(`id, conversationId, timestamp, sent_at as sentAt, source,
sourceServiceId, body, json, hasAttachments, type`).  The `timestamp`
column is the NOT NULL ordering key; `sent_at` is nullable. -/
structure MessageRow where
  id : String
  conversationId : String
  timestamp : Int
  sentAt : Option Int
  source : Option String
  sourceServiceId : Option String
  body : Option String
  json : Option MsgJson
  hasAttachments : Option Int
  type : Option String
  deriving Repr, DecidableEq

/-- A row of the `items` key-value table.  `json` holds the parsed JSON
of the row (`none` models an unparseable or NULL value, whose
`JSON.parse` failure `loadSelfContact` swallows). -/
structure ItemJson where
  value : Option String
  deriving Repr, DecidableEq

structure ItemRow where
  id : String
  json : Option ItemJson
  deriving Repr, DecidableEq

/-- The decrypted database content visible to the repository layer:  the
`conversations`, `messages` and `items` tables, each as a list of rows in
storage order. -/
structure DB where
  conversations : List ConversationRow
  messages : List MessageRow
  items : List ItemRow
  deriving Repr, DecidableEq

/-- The stable output projection produced by `formatMessage`.  The `date`
field holds the selected epoch timestamp (`msg.sentAt || msg.timestamp`,
`none` when that value is falsy); rendering it as an ISO-8601 string is
done by the external JS `Date` library (`new Date(ts).toISOString()`),
which is injective on epoch values, so the projection keeps the number. -/
structure FormattedMessage where
  date : Option Int
  sender : String
  body : String
  quote : String
  sticker : String
  reactions : List Reaction
  attachments : String
  deriving Repr, DecidableEq

/-! ## Message repository operations -/

/-- Embedding of the conversation lookup shared by `getChatMessages` and
`searchChat`: `SELECT ... FROM conversations WHERE name = ? OR
profileName = ? LIMIT 1`, both placeholders bound to `chatName`.  SQL
`=` against a non-NULL bind value never matches a NULL column. -/
def findConversation (db : DB) (chatName : String) : Option ConversationRow :=
  db.conversations.find? (fun c => c.name == some chatName || c.profileName == some chatName)

/-- Embedding of the display-name fallback chain: `conversation.name ||
conversation.profileName`, then, when that is falsy and the `json` column
parses, `jsonData.name || jsonData.profileName || jsonData.groupName`. -/
def resolveContactName (conv : ConversationRow) : Option String :=
  let base := jsOrStr conv.name conv.profileName
  if jsTruthyStr base then base
  else
    match conv.json with
    | some j => jsOrStr j.name (jsOrStr j.profileName j.groupName)
    | none => base

/-- Insert a message into a timestamp-descending list, keeping the list
non-increasing: the row goes in front of the first strictly older row. -/
def insertDesc (m : MessageRow) : List MessageRow → List MessageRow
  | [] => [m]
  | x :: xs => if x.timestamp < m.timestamp then m :: x :: xs else x :: insertDesc m xs

/-- Embedding of `ORDER BY timestamp DESC`: a sort of the row list into
non-increasing timestamp order (a stable insertion sort; SQLite leaves
tie order unspecified, and any non-increasing arrangement refines it). -/
def sortByTimestampDesc : List MessageRow → List MessageRow
  | [] => []
  | x :: xs => insertDesc x (sortByTimestampDesc xs)

/-- Embedding of the LIMIT/OFFSET clause construction of
`getChatMessages`: `if (limit)` appends `LIMIT limit OFFSET offset`,
`else if (offset > 0)` appends `LIMIT -1 OFFSET offset` (no upper bound),
else no clause.  JS truthiness makes `limit = 0` the same as no limit;
SQLite applies OFFSET before LIMIT on the ordered rows. -/
def applyLimitOffset (limit : Option Nat) (offset : Nat) (rows : List MessageRow) : List MessageRow :=
  if jsTruthyNat limit then (rows.drop offset).take (limit.getD 0)
  else if offset > 0 then rows.drop offset
  else rows

/-- The raw rows returned by the `getChatMessages` query: messages of the
resolved conversation, ordered by `timestamp DESC`, with the
LIMIT/OFFSET clause applied; an unresolvable chat name yields `[]`. -/
def getChatMessagesRaw (db : DB) (chatName : String) (limit : Option Nat) (offset : Nat) :
    List MessageRow :=
  match findConversation db chatName with
  | none => []
  | some conv =>
      applyLimitOffset limit offset
        (sortByTimestampDesc (db.messages.filter (fun m => m.conversationId == conv.id)))

/-! ## SQLite LIKE and searchChat -/

/-- ASCII-only lower-casing, as used by SQLite's default `LIKE`: the
letters `A`–`Z` fold to lower case, every other character is left
unchanged (non-ASCII comparison is case-sensitive). -/
def asciiLower (c : Char) : Char :=
  if 'A' ≤ c ∧ c ≤ 'Z' then Char.ofNat (c.toNat + 32) else c

/-- Embedding of SQLite's default `LIKE` pattern match (no ESCAPE
clause): `%` matches any sequence, `_` matches any single character, and
every other pattern character matches one text character up to ASCII
case folding. -/
def likeMatch : List Char → List Char → Bool
  | [], t => t.isEmpty
  | p :: ps, t =>
    if p = '%' then t.tails.any (fun s => likeMatch ps s)
    else
      match t with
      | [] => false
      | c :: ts =>
        if p = '_' then likeMatch ps ts
        else (asciiLower p == asciiLower c) && likeMatch ps ts

/-- Embedding of the `body LIKE ?` condition: SQL `LIKE` on a NULL body
is NULL, which the WHERE clause treats as not matching. -/
def bodyLike (body : Option String) (pat : String) : Bool :=
  match body with
  | some b => likeMatch pat.data b.data
  | none => false

/-- Specification-side predicate, from the claim's words rather than the
source: the (present) body contains `s` as a literal substring,
case-insensitively for ASCII letters and case-sensitively otherwise. -/
def bodyContainsCI (body : Option String) (s : String) : Bool :=
  match body with
  | some b => decide ((s.data.map asciiLower) <:+: (b.data.map asciiLower))
  | none => false

/-- The raw rows returned by the `searchChat` query: messages of the
resolved conversation whose body matches `'%' + query + '%'` under SQL
`LIKE`, ordered by `timestamp DESC`, truncated to `limit` when that is
truthy; an unresolvable chat name yields `[]`. -/
def searchChatRaw (db : DB) (chatName : String) (query : String) (limit : Option Nat) :
    List MessageRow :=
  match findConversation db chatName with
  | none => []
  | some conv =>
      let rows := sortByTimestampDesc
        (db.messages.filter (fun m =>
          m.conversationId == conv.id && bodyLike m.body ("%" ++ query ++ "%")))
      if jsTruthyNat limit then rows.take (limit.getD 0) else rows

/-! ## Message formatting -/

/-- Embedding of `formatMessage(msg, contactName)`.  `selfServiceId` is
the instance field cached by `loadSelfContact` (`null` when unloaded);
the JS comparison `msg.sourceServiceId === this.selfServiceId` is
equality of the two nullable values, with `null === null` true. -/
def formatMessage (selfServiceId : Option String) (msg : MessageRow) (contactName : String) :
    FormattedMessage :=
  let ts := jsOrInt msg.sentAt msg.timestamp
  let isFromSelf := msg.sourceServiceId == selfServiceId || msg.type == some "outgoing"
  let jsonLoaded := msg.json
  { date := if ts ≠ 0 then some ts else none
    sender := if isFromSelf then "Me" else contactName
    body := (msg.body).getD ""
    quote :=
      match jsonLoaded with
      | some j =>
        match j.quote with
        | some q => jsOrDflt q.text ""
        | none => ""
      | none => ""
    sticker :=
      match jsonLoaded with
      | some j =>
        match j.sticker with
        | some st => jsOrDflt st.emoji (jsOrDflt st.packId "")
        | none => ""
      | none => ""
    reactions :=
      match jsonLoaded with
      | some j => j.reactions.getD []
      | none => []
    attachments := if jsTruthyInt msg.hasAttachments then "yes" else "" }

/-- `getChatMessages`: the raw query rows mapped through `formatMessage`
with the once-resolved contact name (`contactName || "Unknown"`). -/
def getChatMessages (db : DB) (selfServiceId : Option String) (chatName : String)
    (limit : Option Nat) (offset : Nat) : List FormattedMessage :=
  match findConversation db chatName with
  | none => []
  | some conv =>
      (getChatMessagesRaw db chatName limit offset).map
        (fun m => formatMessage selfServiceId m (jsOrDflt (resolveContactName conv) "Unknown"))

/-- `searchChat`: the raw search rows mapped through `formatMessage` with
the once-resolved contact name (`contactName || "Unknown"`). -/
def searchChat (db : DB) (selfServiceId : Option String) (chatName : String) (query : String)
    (limit : Option Nat) : List FormattedMessage :=
  match findConversation db chatName with
  | none => []
  | some conv =>
      (searchChatRaw db chatName query limit).map
        (fun m => formatMessage selfServiceId m (jsOrDflt (resolveContactName conv) "Unknown"))

/-- Embedding of `loadSelfContact`: read the first `items` row with
`id = 'uuid_id'`, parse its `json` column and take `data.value || null`;
every failure (no row, unparseable JSON, falsy value) leaves the cached
identifier `null` — the whole body is wrapped in a swallowing
`try`/`catch`, so the function is total and never errors. -/
def loadSelfContact (db : DB) : Option String :=
  match db.items.find? (fun r => r.id == "uuid_id") with
  | none => none
  | some r =>
    match r.json with
    | none => none
    | some j =>
      match j.value with
      | some v => if v.isEmpty then none else some v
      | none => none

/-! ## Hex codec

`hexDecode` models `Buffer.from(s, "hex")`: it consumes pairs of hex
digits and stops at the first pair that is not valid hex.  `hexEncode` is
the standard lower-case hex rendering of a byte list (used by the claims
to build blobs; Signal's config stores key material hex-encoded). -/

def hexVal (c : Char) : Option Nat :=
  if '0' ≤ c ∧ c ≤ '9' then some (c.toNat - 48)
  else if 'a' ≤ c ∧ c ≤ 'f' then some (c.toNat - 87)
  else if 'A' ≤ c ∧ c ≤ 'F' then some (c.toNat - 55)
  else none

def hexDecodeAux : List Char → List Nat
  | c1 :: c2 :: rest =>
    match hexVal c1, hexVal c2 with
    | some h, some l => (16 * h + l) :: hexDecodeAux rest
    | _, _ => []
  | _ => []

def hexDecode (s : String) : List Nat := hexDecodeAux s.data

def hexDigit (n : Nat) : Char :=
  if n < 10 then Char.ofNat (48 + n) else Char.ofNat (87 + n)

def hexEncode (bs : List Nat) : String :=
  ⟨(bs.map (fun b => [hexDigit (b / 16), hexDigit (b % 16)])).flatten⟩

/-! ## UTF-8 codec

`utf8Encode` is the standard UTF-8 encoding of a string's characters;
`utf8Decode` models `Buffer.prototype.toString("utf-8")` on the byte
sequences this layer produces: it decodes every valid UTF-8 sequence
correctly (invalid sequences, which Node maps to U+FFFD, only arise
outside the verified paths). -/

def utf8EncodeChar (c : Nat) : List Nat :=
  if c < 0x80 then [c]
  else if c < 0x800 then [0xC0 + c / 64, 0x80 + c % 64]
  else if c < 0x10000 then [0xE0 + c / 4096, 0x80 + (c / 64) % 64, 0x80 + c % 64]
  else [0xF0 + c / 262144, 0x80 + (c / 4096) % 64, 0x80 + (c / 64) % 64, 0x80 + c % 64]

def utf8Encode (s : String) : List Nat :=
  (s.data.map (fun c => utf8EncodeChar c.toNat)).flatten

/-- UTF-8 decoding automaton: `pending` counts continuation bytes still
expected for the current code point and `acc` accumulates its high bits.
A byte below `0x80` is an ASCII character; a lead byte below `0xE0`,
`0xF0`, or above starts a 2-, 3- or 4-byte sequence; each continuation
byte shifts its low 6 bits into the accumulator, and the final one emits
the character. -/
def utf8DecodeAux2 : Nat → Nat → List Nat → List Char
  | 0, _, [] => []
  | _ + 1, _, [] => [Char.ofNat 0xFFFD]
  | 0, _, b :: rest =>
    if b < 0x80 then Char.ofNat b :: utf8DecodeAux2 0 0 rest
    else if b < 0xE0 then utf8DecodeAux2 1 (b - 0xC0) rest
    else if b < 0xF0 then utf8DecodeAux2 2 (b - 0xE0) rest
    else utf8DecodeAux2 3 (b - 0xF0) rest
  | pending + 1, acc, b :: rest =>
    if pending = 0 then Char.ofNat (acc * 64 + (b - 0x80)) :: utf8DecodeAux2 0 0 rest
    else utf8DecodeAux2 pending (acc * 64 + (b - 0x80)) rest

def utf8DecodeList (bs : List Nat) : List Char := utf8DecodeAux2 0 0 bs

def utf8Decode (bs : List Nat) : String := ⟨utf8DecodeList bs⟩

/-! ## AES-128-CBC with PKCS#7 padding

The AES block permutation and PBKDF2 are external Node `crypto`
primitives; the embedding takes them as parameters (`CryptoPrims`) and
implements the mode of operation (`CBC`) and padding around them, as
`createDecipheriv("aes-128-cbc", key, iv)` does. -/

/-- Byte-wise XOR of two equal-length byte lists. -/
def xorBytes (a b : List Nat) : List Nat := List.zipWith Nat.xor a b

/-- Fuel-driven split of a byte list into 16-byte blocks (structural in
the fuel so that concrete instances evaluate in the kernel). -/
def chunks16Go : Nat → List Nat → List (List Nat)
  | 0, _ => []
  | _ + 1, [] => []
  | fuel + 1, l => l.take 16 :: chunks16Go fuel (l.drop 16)

def chunks16 (l : List Nat) : List (List Nat) := chunks16Go l.length l

/-- CBC encryption of a block sequence: each plaintext block is XORed
with the previous ciphertext block (initially the IV) and then passed
through the block cipher. -/
def cbcEncBlocks (enc : List Nat → List Nat) : List Nat → List (List Nat) → List (List Nat)
  | _, [] => []
  | prev, b :: bs =>
    let c := enc (xorBytes b prev)
    c :: cbcEncBlocks enc c bs

/-- CBC decryption of a block sequence: each ciphertext block is passed
through the inverse block cipher and XORed with the previous ciphertext
block (initially the IV). -/
def cbcDecBlocks (dec : List Nat → List Nat) : List Nat → List (List Nat) → List (List Nat)
  | _, [] => []
  | prev, c :: cs => xorBytes (dec c) prev :: cbcDecBlocks dec c cs

/-- PKCS#7 padding to a positive block size: append `padLen` copies of
the byte `padLen`, where `padLen = blockSize - len % blockSize` (always
between 1 and `blockSize`). -/
def pkcs7pad (blockSize : Nat) (data : List Nat) : List Nat :=
  let padLen := blockSize - data.length % blockSize
  data ++ List.replicate padLen padLen

/-- PKCS#7 padding removal for block size 16, as checked by OpenSSL's
`EVP_DecryptFinal` behind `decipher.final()`: the last byte `k` must be
in `1..16` and the last `k` bytes must all equal `k`; otherwise the
padding is rejected (`bad decrypt`). -/
def pkcs7unpad (data : List Nat) : Option (List Nat) :=
  match data.getLast? with
  | none => none
  | some k =>
    if 1 ≤ k ∧ k ≤ 16 ∧ k ≤ data.length ∧ (data.drop (data.length - k)).all (fun x => x == k)
    then some (data.take (data.length - k)) else none

/-- The external Node `crypto` primitives used by `decryptKey`:
`pbkdf2Sync(password, salt, iterations, keyLen, digest)` and the raw
AES-128 block permutation pair underlying `aes-128-cbc`
(`aes128Enc` is used only by the claims' reference encryptor). -/
structure CryptoPrims where
  pbkdf2Sync : String → List Nat → Nat → Nat → String → List Nat
  aes128Enc : List Nat → List Nat → List Nat
  aes128Dec : List Nat → List Nat → List Nat

/-- The 3-byte version tag `"v10"`. -/
def v10Tag : List Nat := [0x76, 0x31, 0x30]

/-- The fixed literal salt `"saltysalt"` as bytes. -/
def saltBytes : List Nat := [0x73, 0x61, 0x6C, 0x74, 0x79, 0x73, 0x61, 0x6C, 0x74]

/-- The fixed IV: 16 space characters. -/
def iv16 : List Nat := List.replicate 16 0x20

/-- Embedding of `decryptKey(password, encryptedKeyHex)`: hex-decode the
blob, require the 3-byte `v10` tag, derive a 16-byte key by PBKDF2
(salt `"saltysalt"`, 1003 iterations, SHA-1), CBC-decrypt the remainder
with the 16-space IV, strip PKCS padding, and decode the plaintext as
UTF-8.  Cipher-level failures carry OpenSSL's messages (`wrong final
block length` for a partial block at `final()`, `bad decrypt` for bad
padding). -/
def decryptKey (cp : CryptoPrims) (password : String) (encryptedKeyHex : String) :
    Except String String :=
  let encryptedKey := hexDecode encryptedKeyHex
  if encryptedKey.take 3 ≠ v10Tag then Except.error "Encrypted key does not start with v10"
  else
    let ciphertext := encryptedKey.drop 3
    let key := cp.pbkdf2Sync password saltBytes 1003 16 "sha1"
    if ciphertext.length % 16 ≠ 0 then Except.error "wrong final block length"
    else
      match pkcs7unpad ((cbcDecBlocks (cp.aes128Dec key) iv16 (chunks16 ciphertext)).flatten) with
      | some pt => Except.ok (utf8Decode pt)
      | none => Except.error "bad decrypt"

/-- Reference blob constructor from the claims: the hex encoding of the
3-byte `v10` tag followed by the AES-128-CBC encryption (PKCS-padded,
16-space IV) of the plaintext's UTF-8 bytes under the PBKDF2-derived
key (salt `"saltysalt"`, 1003 iterations, SHA-1, 16 bytes). -/
def referenceEncryptBlob (cp : CryptoPrims) (password : String) (plaintext : String) : String :=
  let key := cp.pbkdf2Sync password saltBytes 1003 16 "sha1"
  let padded := pkcs7pad 16 (utf8Encode plaintext)
  hexEncode (v10Tag ++ (cbcEncBlocks (cp.aes128Enc key) iv16 (chunks16 padded)).flatten)

/-! ## Key resolution

`getEncryptionKey(sourceDir, providedKey)` reads `config.json` and the
macOS Keychain.  The filesystem, platform and the
`security find-generic-password -ws "Signal Safe Storage"` child process
are externals, modelled by a `KeyEnv` record. -/

/-- The parsed `config.json`: an optional plaintext `key` field and an
optional hex-encoded `encryptedKey` field. -/
structure ConfigJson where
  key : Option String
  encryptedKey : Option String
  deriving Repr, DecidableEq

/-- External environment of `getEncryptionKey`: the platform name, the
config file (outer `none`: file absent; `some none`: unreadable or
unparseable, whose exception the outer `catch` swallows; `some (some c)`:
parsed), and the outcome of the `security` command (raw stdout before
`.trim()`, or a failure). -/
structure KeyEnv where
  platform : String
  config : Option (Option ConfigJson)
  securityPassword : Except String String
  deriving Repr

/-- The distinct error classes thrown on the key/open path, one
constructor per `throw` site of `signal-db.js` (the payload is the
interpolated part of the message):
`databaseNotFound` = "Signal database not found at: …",
`keyNotFound` = "Could not find Signal encryption key. …",
`keychainAccess` = "Cannot access macOS Keychain … security
find-generic-password …" (fixed instruction text),
`openFailed` = "Failed to open Signal database: {engine message}. Make
sure Signal Desktop is closed before accessing." -/
inductive OpenError
  | databaseNotFound (path : String)
  | keyNotFound (dir : String)
  | keychainAccess
  | openFailed (engineMsg : String)
  deriving Repr, DecidableEq

/-- ASCII whitespace as stripped by `String.prototype.trim()` (the
whitespace that occurs in `security` output). -/
def isJsSpace (c : Char) : Bool :=
  c == ' ' || c == '\t' || c == '\n' || c == '\r'

/-- Embedding of JS `.trim()`: strip leading and trailing whitespace. -/
def jsTrim (s : String) : String :=
  ⟨((s.data.dropWhile isJsSpace).reverse.dropWhile isJsSpace).reverse⟩

/-- Embedding of `getEncryptionKey(sourceDir, providedKey)`.  A truthy
`providedKey` is returned verbatim.  Otherwise the config file is read:
a truthy `key` field is returned as-is; else, when a truthy
`encryptedKey` field exists and the platform is darwin, the Keychain
secret is fetched and passed (trimmed) as the password to `decryptKey`.
Both a `security` failure and a `decryptKey` failure land in the inner
`catch`, which throws the Keychain-instructions error; the outer `catch`
rethrows exactly that error (its message contains "Keychain") and
swallows everything else (e.g. `JSON.parse` failures), falling through
to `null`. -/
def getEncryptionKey (cp : CryptoPrims) (env : KeyEnv) (providedKey : Option String) :
    Except OpenError (Option String) :=
  if jsTruthyStr providedKey then Except.ok providedKey
  else
    match env.config with
    | none => Except.ok none
    | some none => Except.ok none
    | some (some config) =>
      if jsTruthyStr config.key then Except.ok config.key
      else if jsTruthyStr config.encryptedKey && env.platform == "darwin" then
        match env.securityPassword with
        | Except.error _ => Except.error OpenError.keychainAccess
        | Except.ok out =>
          match decryptKey cp (jsTrim out) (config.encryptedKey.getD "") with
          | Except.ok pt => Except.ok (some pt)
          | Except.error _ => Except.error OpenError.keychainAccess
      else Except.ok none

/-! ## Session open / close -/

/-- The mutable fields of the `SignalDatabase` class instance: the
constructor key, the resolved source directory, the open engine handle
(`db`, `null` when closed) and the cached session-owner identifier. -/
structure SignalDatabase where
  key : Option String
  sourceDir : String
  db : Option DB
  selfServiceId : Option String
  deriving Repr, DecidableEq

/-- External environment of `open()`: whether `sourceDir/sql/db.sqlite`
exists, the `SIGNAL_KEY` environment variable, the key-resolution
environment, and the engine outcomes of `new Database(dbPath)`, the four
cipher pragmas, and the `SELECT 1` liveness probe (each either succeeds
or throws with an engine message such as "database is locked" or "file
is not a database"). -/
structure OpenEnv where
  dbFileExists : Bool
  signalKeyEnv : Option String
  keyEnv : KeyEnv
  newDatabase : Except String DB
  pragmasResult : Except String Unit
  probeResult : Except String Unit

/-- Embedding of `open()` as a state transition returning the call's
result and the instance state after the call.  Mirrors the source order:
memoized handle; `existsSync` check; key resolution
(`this.key || process.env.SIGNAL_KEY` as the provided key); then, inside
the `try`, `this.db = new Database(dbPath)` (the assignment happens
before any pragma), the pragmas, the probe, `loadSelfContact()`.  The
`catch` wraps any engine error into the single generic `openFailed`
class; it does not reset or close `this.db`. -/
def openDb (cp : CryptoPrims) (env : OpenEnv) (s : SignalDatabase) :
    Except OpenError DB × SignalDatabase :=
  match s.db with
  | some d => (Except.ok d, s)
  | none =>
    if ¬ env.dbFileExists then
      (Except.error (OpenError.databaseNotFound (s.sourceDir ++ "/sql/db.sqlite")), s)
    else
      match getEncryptionKey cp env.keyEnv (jsOrStr s.key env.signalKeyEnv) with
      | Except.error e => (Except.error e, s)
      | Except.ok none => (Except.error (OpenError.keyNotFound s.sourceDir), s)
      | Except.ok (some _encKey) =>
        match env.newDatabase with
        | Except.error e => (Except.error (OpenError.openFailed e), s)
        | Except.ok d =>
          let s1 := { s with db := some d }
          match env.pragmasResult with
          | Except.error e => (Except.error (OpenError.openFailed e), s1)
          | Except.ok _ =>
            match env.probeResult with
            | Except.error e => (Except.error (OpenError.openFailed e), s1)
            | Except.ok _ =>
              (Except.ok d, { s1 with selfServiceId := loadSelfContact d })

/-- Embedding of `close()`: release the handle and null the field. -/
def closeDb (s : SignalDatabase) : SignalDatabase :=
  { s with db := none }

/-- The error class of an `OpenError`, forgetting the interpolated
message payload: two errors are of the same class iff the same `throw`
site in the source produced them. -/
def openErrorClass : OpenError → Nat
  | OpenError.databaseNotFound _ => 0
  | OpenError.keyNotFound _ => 1
  | OpenError.keychainAccess => 2
  | OpenError.openFailed _ => 3

/-! ## Concrete fixtures used by witnesses and counterexamples -/

/-- A conversation row named "Alice". -/
def wAliceConv : ConversationRow :=
  { id := "c1", serviceId := none, name := some "Alice", profileName := none,
    number := none, type := "private", json := none }

/-- Message fixture: older incoming message with a body. -/
def wMsg1 : MessageRow :=
  { id := "m1", conversationId := "c1", timestamp := 1, sentAt := none, source := none,
    sourceServiceId := none, body := some "hi", json := none, hasAttachments := none,
    type := some "incoming" }

/-- Message fixture: newer incoming message with a body. -/
def wMsg2 : MessageRow :=
  { id := "m2", conversationId := "c1", timestamp := 2, sentAt := none, source := none,
    sourceServiceId := none, body := some "yo", json := none, hasAttachments := none,
    type := some "incoming" }

/-- Message fixture: body "abc" (matched by the wildcard pattern
`%a_c%` though it does not contain the literal substring "a_c"). -/
def wMsgAbc : MessageRow :=
  { id := "m3", conversationId := "c1", timestamp := 3, sentAt := none, source := none,
    sourceServiceId := none, body := some "abc", json := none, hasAttachments := none,
    type := some "incoming" }

/-- Message fixture: a bodyless (NULL-body) message, e.g. an
attachment-only message. -/
def wMsgNoBody : MessageRow :=
  { id := "m4", conversationId := "c1", timestamp := 4, sentAt := none, source := none,
    sourceServiceId := none, body := none, json := none, hasAttachments := some 1,
    type := some "incoming" }

/-- Message fixture: incoming message whose `sourceServiceId` column is
NULL. -/
def wMsgNullSource : MessageRow :=
  { id := "m5", conversationId := "c1", timestamp := 5, sentAt := none, source := none,
    sourceServiceId := none, body := some "who sent this", json := none,
    hasAttachments := none, type := some "incoming" }

/-- Database fixture: the "Alice" conversation with two messages. -/
def wDB : DB :=
  { conversations := [wAliceConv], messages := [wMsg1, wMsg2], items := [] }

/-- Database fixture: the "Alice" conversation with one message whose
body is "abc". -/
def wDBAbc : DB :=
  { conversations := [wAliceConv], messages := [wMsgAbc], items := [] }

/-- Database fixture: the "Alice" conversation with one NULL-body
message. -/
def wDBNoBody : DB :=
  { conversations := [wAliceConv], messages := [wMsgNoBody], items := [] }

/-- Database fixture with an empty `items` table (no session-owner
identifier row). -/
def wDBNoItems : DB :=
  { conversations := [wAliceConv], messages := [wMsgNullSource], items := [] }

/-- Database fixture whose `uuid_id` items row is malformed (its JSON
does not parse). -/
def wDBMalformedItem : DB :=
  { conversations := [], messages := [], items := [{ id := "uuid_id", json := none }] }

/-- Identity crypto primitives: a degenerate but valid instantiation of
the external primitives (the block "cipher" is the identity) used to
instantiate hypotheses in witnesses. -/
def cpId : CryptoPrims :=
  { pbkdf2Sync := fun _ _ _ len _ => List.replicate len 0
    aes128Enc := fun _ b => b
    aes128Dec := fun _ b => b }

/-- Message fixture: incoming message sent by the session owner's
service id. -/
def wMsgSelf : MessageRow :=
  { id := "m6", conversationId := "c1", timestamp := 6, sentAt := none, source := none,
    sourceServiceId := some "me-svc", body := some "from me", json := none,
    hasAttachments := none, type := some "incoming" }

/-- Message fixture: incoming message with a present foreign sender
service id. -/
def wMsgFromSvc : MessageRow :=
  { id := "m7", conversationId := "c1", timestamp := 7, sentAt := none, source := none,
    sourceServiceId := some "other-svc", body := some "from them", json := none,
    hasAttachments := none, type := some "incoming" }

/-- Key environment fixture: linux, no config file, Keychain denied. -/
def wKeyEnvNone : KeyEnv :=
  { platform := "linux", config := none, securityPassword := Except.error "denied" }

/-- Key environment fixture: config file with a plaintext key field. -/
def wKeyEnvCfgKey : KeyEnv :=
  { platform := "linux",
    config := some (some { key := some "deadbeef", encryptedKey := none }),
    securityPassword := Except.error "denied" }

/-- A well-formed encrypted key blob for the identity primitives: the
reference encryption of the plaintext "k3y" under password "pw". -/
def wBlobHex : String := referenceEncryptBlob cpId "pw" "k3y"

/-- Key environment fixture: darwin, config file with an encrypted key
field, Keychain yields the password (with trailing newline). -/
def wKeyEnvEnc : KeyEnv :=
  { platform := "darwin",
    config := some (some { key := none, encryptedKey := some wBlobHex }),
    securityPassword := Except.ok " pw\n" }

/-- Instance-state fixture: constructor key "abcd", no open handle. -/
def wState0 : SignalDatabase :=
  { key := some "abcd", sourceDir := "/sig", db := none, selfServiceId := none }

/-- Instance-state fixture: ill-formed (non-hex) constructor key. -/
def wStateZZ : SignalDatabase :=
  { key := some "zz", sourceDir := "/sig", db := none, selfServiceId := none }

/-- Instance-state fixture: no key anywhere. -/
def wStateNoKey : SignalDatabase :=
  { key := none, sourceDir := "/sig", db := none, selfServiceId := none }

/-- Open environment fixture: file present, engine opens, pragmas fine,
liveness probe fails with the engine's wrong-key corruption message. -/
def wEnvProbeFail : OpenEnv :=
  { dbFileExists := true, signalKeyEnv := none, keyEnv := wKeyEnvNone,
    newDatabase := Except.ok wDB, pragmasResult := Except.ok (),
    probeResult := Except.error "file is not a database" }

/-- Open environment fixture: liveness probe fails with the engine's
busy/lock message. -/
def wEnvLock : OpenEnv :=
  { dbFileExists := true, signalKeyEnv := none, keyEnv := wKeyEnvNone,
    newDatabase := Except.ok wDB, pragmasResult := Except.ok (),
    probeResult := Except.error "database is locked" }

/-- Open environment fixture: database file absent. -/
def wEnvNoFile : OpenEnv :=
  { dbFileExists := false, signalKeyEnv := none, keyEnv := wKeyEnvNone,
    newDatabase := Except.error "unreachable", pragmasResult := Except.ok (),
    probeResult := Except.ok () }

/-- Open environment fixture: everything succeeds but no key source is
configured. -/
def wEnvOkNoKey : OpenEnv :=
  { dbFileExists := true, signalKeyEnv := none, keyEnv := wKeyEnvNone,
    newDatabase := Except.ok wDB, pragmasResult := Except.ok (),
    probeResult := Except.ok () }

/-! # Theorems -/

/-! ## Sorting lemmas -/

theorem mem_insertDesc (m b : MessageRow) (l : List MessageRow) :
    b ∈ insertDesc m l ↔ b = m ∨ b ∈ l := by
  induction l with
  | nil => simp [insertDesc]
  | cons x xs ih =>
    simp only [insertDesc]
    by_cases hc : x.timestamp < m.timestamp
    · rw [if_pos hc]; simp [or_comm, or_assoc, or_left_comm]
    · rw [if_neg hc]; simp [ih]; tauto

theorem length_insertDesc (m : MessageRow) (l : List MessageRow) :
    (insertDesc m l).length = l.length + 1 := by
  induction l with
  | nil => simp [insertDesc]
  | cons x xs ih =>
    simp only [insertDesc]
    by_cases hc : x.timestamp < m.timestamp
    · rw [if_pos hc]; simp
    · rw [if_neg hc]; simp [ih]

theorem length_sortByTimestampDesc (l : List MessageRow) :
    (sortByTimestampDesc l).length = l.length := by
  induction l with
  | nil => rfl
  | cons x xs ih => simp [sortByTimestampDesc, length_insertDesc, ih]

theorem pairwise_insertDesc (m : MessageRow) (l : List MessageRow)
    (h : l.Pairwise (fun a b => b.timestamp ≤ a.timestamp)) :
    (insertDesc m l).Pairwise (fun a b => b.timestamp ≤ a.timestamp) := by
  induction l with
  | nil => simp [insertDesc]
  | cons x xs ih =>
    rw [List.pairwise_cons] at h
    obtain ⟨hx, hxs⟩ := h
    simp only [insertDesc]
    by_cases hc : x.timestamp < m.timestamp
    · rw [if_pos hc]
      refine List.Pairwise.cons ?_ (List.Pairwise.cons hx hxs)
      intro b hb
      rcases List.mem_cons.mp hb with hbx | hbxs
      · exact le_of_lt (hbx ▸ hc)
      · exact le_trans (hx b hbxs) (le_of_lt hc)
    · rw [if_neg hc]
      refine List.Pairwise.cons ?_ (ih hxs)
      intro b hb
      rcases (mem_insertDesc m b xs).mp hb with hbm | hbxs
      · exact hbm ▸ le_of_not_lt hc
      · exact hx b hbxs

theorem pairwise_sortByTimestampDesc (l : List MessageRow) :
    (sortByTimestampDesc l).Pairwise (fun a b => b.timestamp ≤ a.timestamp) := by
  induction l with
  | nil => exact List.Pairwise.nil
  | cons x xs ih => exact pairwise_insertDesc x _ ih

/-! ## C1: pagination of getChatMessages -/

/-- C1: for a conversation resolvable by name with N messages,
`getChatMessages` with a (positive, hence JS-truthy) limit `k` and
offset `o` returns exactly `min k (N - o)` formatted messages (`N - o`
is truncated subtraction, i.e. `max 0 (N - o)`), the returned rows are
in non-increasing timestamp order, and with no limit and offset 0 it
returns exactly `N` formatted messages. -/
theorem getChatMessages_pagination
    (db : DB) (self : Option String) (chatName : String) (conv : ConversationRow)
    (hconv : findConversation db chatName = some conv)
    (k o : Nat) (hk : 0 < k) :
    (getChatMessages db self chatName (some k) o).length
      = min k ((db.messages.filter (fun m => m.conversationId == conv.id)).length - o)
    ∧ (getChatMessagesRaw db chatName (some k) o).Pairwise
        (fun a b => b.timestamp ≤ a.timestamp)
    ∧ (getChatMessages db self chatName none 0).length
      = (db.messages.filter (fun m => m.conversationId == conv.id)).length := by
  have htruthy : jsTruthyNat (some k) = true := by
    simp [jsTruthyNat]; omega
  refine ⟨?_, ?_, ?_⟩
  · simp only [getChatMessages, hconv, List.length_map, getChatMessagesRaw, applyLimitOffset,
      htruthy, if_true, Option.getD_some, List.length_take, List.length_drop,
      length_sortByTimestampDesc]
  · simp only [getChatMessagesRaw, hconv, applyLimitOffset, htruthy, if_true]
    have hs : (List.take ((some k).getD 0)
        (List.drop o (sortByTimestampDesc
          (db.messages.filter (fun m => m.conversationId == conv.id))))).Sublist
        (sortByTimestampDesc (db.messages.filter (fun m => m.conversationId == conv.id))) :=
      (List.take_sublist _ _).trans (List.drop_sublist _ _)
    exact List.Pairwise.sublist hs (pairwise_sortByTimestampDesc _)
  · simp only [getChatMessages, hconv, List.length_map, getChatMessagesRaw, applyLimitOffset]
    simp [jsTruthyNat, length_sortByTimestampDesc]

/-- Witness for C1 at a concrete database: one conversation named
"Alice" with two messages; limit 1 and offset 0 return one row, the raw
rows are ordered, and no limit returns both. -/
theorem getChatMessages_pagination_witness :
    (getChatMessages wDB none "Alice" (some 1) 0).length
      = min 1 ((wDB.messages.filter (fun m => m.conversationId == wAliceConv.id)).length - 0)
    ∧ (getChatMessagesRaw wDB "Alice" (some 1) 0).Pairwise
        (fun a b => b.timestamp ≤ a.timestamp)
    ∧ (getChatMessages wDB none "Alice" none 0).length
      = (wDB.messages.filter (fun m => m.conversationId == wAliceConv.id)).length :=
  getChatMessages_pagination wDB none "Alice" wAliceConv (by decide) 1 0 (by decide)

/-! ## C5: sender resolution in formatMessage -/

/-- C5: a message whose embedded sender service identifier equals the
cached session-owner identifier is formatted with sender "Me" regardless
of its direction tag; otherwise the sender is the supplied contact name
unless the direction tag marks the message outgoing; and both
message-producing operations supply the conversation's resolved name,
defaulting to "Unknown" (`contactName || "Unknown"`). -/
theorem formatMessage_sender_resolution
    (self : Option String) (msg : MessageRow) (contactName : String) :
    (msg.sourceServiceId = self → (formatMessage self msg contactName).sender = "Me")
    ∧ (msg.sourceServiceId ≠ self → msg.type ≠ some "outgoing" →
        (formatMessage self msg contactName).sender = contactName)
    ∧ (∀ db chatName conv limit offset, findConversation db chatName = some conv →
        getChatMessages db self chatName limit offset
          = (getChatMessagesRaw db chatName limit offset).map
              (fun m => formatMessage self m (jsOrDflt (resolveContactName conv) "Unknown"))) := by
  refine ⟨?_, ?_, ?_⟩
  · intro h
    simp [formatMessage, h]
  · intro h1 h2
    simp [formatMessage, h1, h2]
  · intro db chatName conv limit offset hconv
    simp only [getChatMessages, hconv]

/-- Witness for C5: with owner id "me-svc", an incoming message from
"me-svc" is "Me", an incoming message from nobody in particular is the
contact name, and `getChatMessages` formats with the resolved name. -/
theorem formatMessage_sender_resolution_witness :
    (formatMessage (some "me-svc") wMsgSelf "Bob").sender = "Me"
    ∧ (formatMessage (some "me-svc") wMsg1 "Bob").sender = "Bob"
    ∧ getChatMessages wDB (some "me-svc") "Alice" none 0
        = (getChatMessagesRaw wDB "Alice" none 0).map
            (fun m => formatMessage (some "me-svc") m
              (jsOrDflt (resolveContactName wAliceConv) "Unknown")) :=
  ⟨(formatMessage_sender_resolution (some "me-svc") wMsgSelf "Bob").1 (by decide),
   (formatMessage_sender_resolution (some "me-svc") wMsg1 "Bob").2.1 (by decide) (by decide),
   (formatMessage_sender_resolution (some "me-svc") wMsg1 "Bob").2.2 wDB "Alice" wAliceConv
     none 0 (by decide)⟩

/-! ## C6: degradation when the owner identifier cannot be read -/

/-- C6 counterexample: when the owner identifier is unavailable
(`loadSelfContact` yields `null`), a non-outgoing message whose own
`sourceServiceId` column is NULL *is* attributed to "Me" through the JS
identifier comparison (`null === null` is true), contradicting the
claim that self-resolution then "never matches". -/
theorem loadSelfContact_null_match_counterexample :
    loadSelfContact wDBNoItems = none
    ∧ wMsgNullSource.sourceServiceId = none
    ∧ wMsgNullSource.type ≠ some "outgoing"
    ∧ (formatMessage (loadSelfContact wDBNoItems) wMsgNullSource "Alice").sender = "Me" := by
  refine ⟨rfl, rfl, by decide, rfl⟩

/-- C6 (amended): loading the owner identifier never errors — an absent
or malformed configuration row just leaves it `null` — and
self-resolution then degrades to matching only messages whose own
sender identifier is likewise absent: a message with a *present* sender
identifier is never attributed to "Me" through identifier equality, only
through the outgoing direction tag. -/
theorem loadSelfContact_degradation
    (db : DB) (msg : MessageRow) (contactName : String) (x : String) :
    (db.items.find? (fun r => r.id == "uuid_id") = none → loadSelfContact db = none)
    ∧ (∀ r, db.items.find? (fun r2 => r2.id == "uuid_id") = some r → r.json = none →
        loadSelfContact db = none)
    ∧ (loadSelfContact db = none → msg.sourceServiceId = some x →
        msg.type ≠ some "outgoing" →
        (formatMessage (loadSelfContact db) msg contactName).sender = contactName) := by
  refine ⟨?_, ?_, ?_⟩
  · intro h; simp [loadSelfContact, h]
  · intro r h hr; simp [loadSelfContact, h, hr]
  · intro h hsrc htype
    rw [h]
    simp [formatMessage, hsrc, htype]

/-- Witness for C6 (amended): the empty items table loads nothing, a
malformed row loads nothing, and with no owner identifier an incoming
message with a present sender id keeps the contact name. -/
theorem loadSelfContact_degradation_witness :
    loadSelfContact wDBNoItems = none
    ∧ loadSelfContact wDBMalformedItem = none
    ∧ (formatMessage (loadSelfContact wDBNoItems) wMsgFromSvc "Alice").sender = "Alice" :=
  ⟨(loadSelfContact_degradation wDBNoItems wMsgFromSvc "Alice" "other-svc").1 (by decide),
   (loadSelfContact_degradation wDBMalformedItem wMsgFromSvc "Alice" "other-svc").2.1
     { id := "uuid_id", json := none } (by decide) rfl,
   (loadSelfContact_degradation wDBNoItems wMsgFromSvc "Alice" "other-svc").2.2 rfl rfl
     (by decide)⟩

/-! ## C7: handle lifecycle on failed open -/

/-- C7 failing-input evaluation: with the database file present, a key
configured, the engine handle created and the liveness probe failing
(e.g. a wrong key), `open()` throws the wrapped error but the instance
still holds the open handle (`this.db` was assigned before the pragmas
and the `catch` neither closes nor clears it); a subsequent `open()`
even returns that stale handle as a success.  This contradicts the
specified deterministic close on all exit paths. -/
theorem open_error_path_keeps_handle :
    (openDb cpId wEnvProbeFail wState0).1
        = Except.error (OpenError.openFailed "file is not a database")
    ∧ (openDb cpId wEnvProbeFail wState0).2.db = some wDB
    ∧ (openDb cpId wEnvProbeFail ((openDb cpId wEnvProbeFail wState0).2)).1 = Except.ok wDB :=
  ⟨rfl, rfl, rfl⟩

/-! ## C8: error classes of open -/

/-- C8 counterexample: a busy/lock engine error is *not* reported
distinctly: the lock failure and a wrong-key failure are both thrown
through the single generic "Failed to open Signal database" wrapper
(the `openFailed` class), differing only in the interpolated engine
message. -/
theorem open_lock_error_same_class_counterexample :
    (openDb cpId wEnvLock wState0).1
        = Except.error (OpenError.openFailed "database is locked")
    ∧ (openDb cpId wEnvProbeFail wState0).1
        = Except.error (OpenError.openFailed "file is not a database")
    ∧ openErrorClass (OpenError.openFailed "database is locked")
        = openErrorClass (OpenError.openFailed "file is not a database") :=
  ⟨rfl, rfl, rfl⟩

/-- C8 (amended): `open` fails with `databaseNotFound` when the file is
absent, and with the single generic `openFailed` wrapper for *any*
engine-level failure — constructor failure, pragma failure or probe
failure, including busy/lock and wrong-key errors, which are therefore
not distinct classes. -/
theorem open_error_classes
    (cp : CryptoPrims) (env : OpenEnv) (s : SignalDatabase) (h : s.db = none) :
    (env.dbFileExists = false →
      (openDb cp env s).1
        = Except.error (OpenError.databaseNotFound (s.sourceDir ++ "/sql/db.sqlite")))
    ∧ (∀ k e, env.dbFileExists = true →
        getEncryptionKey cp env.keyEnv (jsOrStr s.key env.signalKeyEnv) = Except.ok (some k) →
        env.newDatabase = Except.error e →
        (openDb cp env s).1 = Except.error (OpenError.openFailed e))
    ∧ (∀ k d e, env.dbFileExists = true →
        getEncryptionKey cp env.keyEnv (jsOrStr s.key env.signalKeyEnv) = Except.ok (some k) →
        env.newDatabase = Except.ok d → env.pragmasResult = Except.error e →
        (openDb cp env s).1 = Except.error (OpenError.openFailed e))
    ∧ (∀ k d e, env.dbFileExists = true →
        getEncryptionKey cp env.keyEnv (jsOrStr s.key env.signalKeyEnv) = Except.ok (some k) →
        env.newDatabase = Except.ok d → env.pragmasResult = Except.ok () →
        env.probeResult = Except.error e →
        (openDb cp env s).1 = Except.error (OpenError.openFailed e)) := by
  refine ⟨?_, ?_, ?_, ?_⟩
  · intro hfile
    simp [openDb, h, hfile]
  · intro k e hfile hkey hnd
    simp [openDb, h, hfile, hkey, hnd]
  · intro k d e hfile hkey hnd hp
    simp [openDb, h, hfile, hkey, hnd, hp]
  · intro k d e hfile hkey hnd hp hq
    simp [openDb, h, hfile, hkey, hnd, hp, hq]

/-- Witness for C8 (amended) at concrete environments: the missing-file
error, and the shared `openFailed` class for a lock failure. -/
theorem open_error_classes_witness :
    (openDb cpId wEnvNoFile wState0).1
        = Except.error (OpenError.databaseNotFound ("/sig" ++ "/sql/db.sqlite"))
    ∧ (openDb cpId wEnvLock wState0).1
        = Except.error (OpenError.openFailed "database is locked") :=
  ⟨(open_error_classes cpId wEnvNoFile wState0 rfl).1 rfl,
   (open_error_classes cpId wEnvLock wState0 rfl).2.2.2 "abcd" wDB
     "database is locked" rfl rfl rfl rfl rfl⟩

/-! ## C9: key resolution order -/

/-- C9: key sources are tried in the fixed order (1) truthy explicit
key parameter (returned as-is), (2) truthy plaintext `key` field of the
parsed config file, (3) when the config instead holds a truthy
`encryptedKey` field and the platform is darwin, the Keychain secret
under "Signal Safe Storage" is passed (trimmed) as the password to
`decryptKey`; and when resolution yields no key, `open` fails with the
could-not-find-key error. -/
theorem getEncryptionKey_resolution_order
    (cp : CryptoPrims) (env : KeyEnv) (provided : Option String) (cfg : ConfigJson) :
    (jsTruthyStr provided = true → getEncryptionKey cp env provided = Except.ok provided)
    ∧ (jsTruthyStr provided = false → env.config = some (some cfg) →
        jsTruthyStr cfg.key = true →
        getEncryptionKey cp env provided = Except.ok cfg.key)
    ∧ (∀ out hex pt, jsTruthyStr provided = false → env.config = some (some cfg) →
        jsTruthyStr cfg.key = false → cfg.encryptedKey = some hex →
        jsTruthyStr (some hex) = true → env.platform = "darwin" →
        env.securityPassword = Except.ok out →
        decryptKey cp (jsTrim out) hex = Except.ok pt →
        getEncryptionKey cp env provided = Except.ok (some pt))
    ∧ (∀ (oenv : OpenEnv) (st : SignalDatabase),
        st.db = none → oenv.dbFileExists = true →
        getEncryptionKey cp oenv.keyEnv (jsOrStr st.key oenv.signalKeyEnv) = Except.ok none →
        (openDb cp oenv st).1 = Except.error (OpenError.keyNotFound st.sourceDir)) := by
  refine ⟨?_, ?_, ?_, ?_⟩
  · intro h
    simp [getEncryptionKey, h]
  · intro h0 hcfg hk
    simp [getEncryptionKey, h0, hcfg, hk]
  · intro out hex pt h0 hcfg hk henc htr hplat hsec hdec
    simp [getEncryptionKey, h0, hcfg, hk, henc, htr, hplat, hsec, hdec]
  · intro oenv st h0 hfile hkey
    simp [openDb, h0, hfile, hkey]

/-- Witness for C9 at concrete environments: explicit key wins; then the
config `key` field; then the darwin Keychain + decryption path recovers
"k3y" from the reference blob; and with no source `open` throws the
could-not-find-key error. -/
theorem getEncryptionKey_resolution_order_witness :
    getEncryptionKey cpId wKeyEnvNone (some "abcd") = Except.ok (some "abcd")
    ∧ getEncryptionKey cpId wKeyEnvCfgKey none = Except.ok (some "deadbeef")
    ∧ getEncryptionKey cpId wKeyEnvEnc none = Except.ok (some "k3y")
    ∧ (openDb cpId wEnvOkNoKey wStateNoKey).1
        = Except.error (OpenError.keyNotFound "/sig") :=
  ⟨(getEncryptionKey_resolution_order cpId wKeyEnvNone (some "abcd")
      { key := none, encryptedKey := none }).1 rfl,
   (getEncryptionKey_resolution_order cpId wKeyEnvCfgKey none
      { key := some "deadbeef", encryptedKey := none }).2.1 rfl rfl rfl,
   (getEncryptionKey_resolution_order cpId wKeyEnvEnc none
      { key := none, encryptedKey := some wBlobHex }).2.2.1 " pw\n" wBlobHex "k3y"
      rfl rfl rfl rfl rfl rfl rfl rfl,
   (getEncryptionKey_resolution_order cpId wKeyEnvNone none
      { key := none, encryptedKey := none }).2.2.2 wEnvOkNoKey wStateNoKey rfl rfl rfl⟩

/-! ## C10: explicit keys bypass validation -/

/-- C10: any non-empty explicitly provided key string is returned
verbatim by key resolution with no hex or length validation, a key
provided through the constructor is never reported as the
could-not-find-key error, and an ill-formed explicit key surfaces only
later as the generic wrapped open failure (here: the probe's wrong-key
corruption error). -/
theorem providedKey_verbatim
    (s : String) (hs : s ≠ "") (cp : CryptoPrims) :
    (∀ env : KeyEnv, getEncryptionKey cp env (some s) = Except.ok (some s))
    ∧ (∀ (env : OpenEnv) (st : SignalDatabase) (r : OpenError) (dir : String),
        st.db = none → st.key = some s →
        (openDb cp env st).1 = Except.error r → r ≠ OpenError.keyNotFound dir)
    ∧ (∀ (env : OpenEnv) (st : SignalDatabase) (d : DB) (e : String),
        st.db = none → st.key = some s → env.dbFileExists = true →
        env.newDatabase = Except.ok d → env.pragmasResult = Except.ok () →
        env.probeResult = Except.error e →
        (openDb cp env st).1 = Except.error (OpenError.openFailed e)) := by
  have hse : s.isEmpty = false := by
    rw [← Bool.not_eq_true, String.isEmpty_iff]; exact hs
  have hkey : ∀ env : KeyEnv, getEncryptionKey cp env (some s) = Except.ok (some s) := by
    intro env
    simp [getEncryptionKey, jsTruthyStr, hse]
  refine ⟨hkey, ?_, ?_⟩
  · intro env st r dir h0 hk hr
    have hjs : jsOrStr st.key env.signalKeyEnv = some s := by
      rw [hk]; simp [jsOrStr, jsTruthyStr, hse]
    by_cases hf : env.dbFileExists
    · rcases hnd : env.newDatabase with e | d
      · simp [openDb, h0, hf, hjs, hkey, hnd] at hr
        simp [← hr]
      · rcases hp : env.pragmasResult with e2 | u
        · simp [openDb, h0, hf, hjs, hkey, hnd, hp] at hr
          simp [← hr]
        · rcases hq : env.probeResult with e3 | u2
          · simp [openDb, h0, hf, hjs, hkey, hnd, hp, hq] at hr
            simp [← hr]
          · simp [openDb, h0, hf, hjs, hkey, hnd, hp, hq] at hr
    · simp [openDb, h0, hf] at hr
      simp [← hr]
  · intro env st d e h0 hk hf hnd hp hq
    have hjs : jsOrStr st.key env.signalKeyEnv = some s := by
      rw [hk]; simp [jsOrStr, jsTruthyStr, hse]
    simp [openDb, h0, hf, hjs, hkey, hnd, hp, hq]

/-- Witness for C10 with the ill-formed (non-hex) key "zz": resolution
returns it verbatim, a failed open with it is not the
could-not-find-key error, and the probe failure surfaces as the generic
wrapped open failure. -/
theorem providedKey_verbatim_witness :
    getEncryptionKey cpId wKeyEnvNone (some "zz") = Except.ok (some "zz")
    ∧ (OpenError.openFailed "file is not a database" ≠ OpenError.keyNotFound "/sig")
    ∧ (openDb cpId wEnvProbeFail wStateZZ).1
        = Except.error (OpenError.openFailed "file is not a database") :=
  ⟨((providedKey_verbatim "zz" (by decide) cpId).1 wKeyEnvNone),
   ((providedKey_verbatim "zz" (by decide) cpId).2.1 wEnvProbeFail wStateZZ
      (OpenError.openFailed "file is not a database") "/sig" rfl rfl rfl),
   ((providedKey_verbatim "zz" (by decide) cpId).2.2 wEnvProbeFail wStateZZ wDB
      "file is not a database" rfl rfl rfl rfl rfl rfl)⟩

/-! ## LIKE pattern lemmas -/

theorem boolEqDecide (b : Bool) (p : Prop) [Decidable p] (h : b = true ↔ p) : b = decide p := by
  rcases Bool.eq_false_or_eq_true b with h1 | h1 <;> simp_all

theorem likeMatch_percent_iff (ps : List Char) (t : List Char) :
    likeMatch ('%' :: ps) t = true ↔ ∃ u, u <:+ t ∧ likeMatch ps u = true := by
  simp [likeMatch, List.any_eq_true, List.mem_tails]

theorem likeMatch_single_percent (t : List Char) : likeMatch ['%'] t = true :=
  (likeMatch_percent_iff [] t).mpr ⟨[], List.nil_suffix, rfl⟩

theorem likeMatch_double_percent (t : List Char) : likeMatch ['%', '%'] t = true :=
  (likeMatch_percent_iff ['%'] t).mpr ⟨t, List.suffix_refl t, likeMatch_single_percent t⟩

theorem likeMatch_literal_percent (s : List Char) (t : List Char)
    (hs : ∀ c ∈ s, c ≠ '%' ∧ c ≠ '_') :
    likeMatch (s ++ ['%']) t = true ↔ (s.map asciiLower) <+: (t.map asciiLower) := by
  induction s generalizing t with
  | nil => simp [likeMatch_single_percent]
  | cons a s2 ih =>
    obtain ⟨ha1, ha2⟩ := hs a (List.mem_cons_self a s2)
    have hs2 : ∀ c ∈ s2, c ≠ '%' ∧ c ≠ '_' := fun c hc => hs c (List.mem_cons_of_mem a hc)
    cases t with
    | nil =>
      simp only [List.cons_append, likeMatch, if_neg ha1, List.map_cons, List.map_nil]
      simp
    | cons c ts =>
      simp only [List.cons_append, likeMatch, if_neg ha1, if_neg ha2, Bool.and_eq_true,
        beq_iff_eq, List.map_cons, List.cons_prefix_cons, List.append_eq]
      rw [ih ts hs2]

theorem likeMatch_infix_iff (s t : List Char) (hs : ∀ c ∈ s, c ≠ '%' ∧ c ≠ '_') :
    likeMatch ('%' :: (s ++ ['%'])) t = true ↔ (s.map asciiLower) <:+: (t.map asciiLower) := by
  rw [likeMatch_percent_iff]
  constructor
  · rintro ⟨u, hu, hm⟩
    rw [likeMatch_literal_percent s u hs] at hm
    obtain ⟨r, hr⟩ := hm
    obtain ⟨w, hw⟩ := hu.map asciiLower
    exact ⟨w, r, by rw [List.append_assoc, hr, hw]⟩
  · rintro ⟨u, v, huv⟩
    refine ⟨t.drop u.length, List.drop_suffix _ _, ?_⟩
    rw [likeMatch_literal_percent s _ hs, List.map_drop]
    have hdrop : (t.map asciiLower).drop u.length = s.map asciiLower ++ v := by
      rw [← huv, List.append_assoc]
      exact List.drop_left u _
    rw [hdrop]
    exact List.prefix_append _ _

/-! ## C4: empty search string -/

/-- C4 counterexample: a message with a NULL body belongs to the
conversation but is *not* returned by `searchChat` with the empty search
string, because SQL `NULL LIKE '%%'` is NULL and the row is filtered
out; so the empty query does not return all of the conversation's
messages. -/
theorem searchChat_null_body_counterexample :
    searchChatRaw wDBNoBody "Alice" "" none = []
    ∧ wDBNoBody.messages.filter (fun m => m.conversationId == wAliceConv.id) = [wMsgNoBody] :=
  ⟨rfl, rfl⟩

/-- C4 (amended): `searchChat` with the empty search string returns all
of the conversation's messages *that have a non-NULL body* (the empty
substring matches every present body), in descending timestamp order,
truncated to the given limit when one is supplied. -/
theorem searchChat_empty_query
    (db : DB) (name : String) (conv : ConversationRow) (k : Nat)
    (hconv : findConversation db name = some conv) (hk : 0 < k) :
    searchChatRaw db name "" none
      = sortByTimestampDesc (db.messages.filter
          (fun m => m.conversationId == conv.id && m.body.isSome))
    ∧ searchChatRaw db name "" (some k)
      = (sortByTimestampDesc (db.messages.filter
          (fun m => m.conversationId == conv.id && m.body.isSome))).take k := by
  have hfilter : ∀ m : MessageRow,
      (m.conversationId == conv.id && bodyLike m.body ("%" ++ "" ++ "%"))
        = (m.conversationId == conv.id && m.body.isSome) := by
    intro m
    cases hb : m.body with
    | none => rfl
    | some b =>
      have hpat : (("%" ++ "" ++ "%") : String).data = ['%', '%'] := rfl
      simp [bodyLike, hpat, likeMatch_double_percent]
  have hfeq : db.messages.filter
        (fun m => m.conversationId == conv.id && bodyLike m.body ("%" ++ "" ++ "%"))
      = db.messages.filter (fun m => m.conversationId == conv.id && m.body.isSome) :=
    List.filter_congr (fun m _ => hfilter m)
  have htruthy : jsTruthyNat (some k) = true := by simp [jsTruthyNat]; omega
  constructor
  · simp only [searchChatRaw, hconv, hfeq]
    simp [jsTruthyNat]
  · simp only [searchChatRaw, hconv, hfeq, htruthy, if_true, Option.getD_some]

/-- Witness for C4 (amended) at the concrete two-message database. -/
theorem searchChat_empty_query_witness :
    searchChatRaw wDB "Alice" "" none
      = sortByTimestampDesc (wDB.messages.filter
          (fun m => m.conversationId == wAliceConv.id && m.body.isSome))
    ∧ searchChatRaw wDB "Alice" "" (some 1)
      = (sortByTimestampDesc (wDB.messages.filter
          (fun m => m.conversationId == wAliceConv.id && m.body.isSome))).take 1 :=
  searchChat_empty_query wDB "Alice" wAliceConv 1 (by decide) (by decide)

/-! ## C3: search as literal substring match -/

/-- C3 counterexample: the search string is spliced into the LIKE
pattern unescaped, so its `%`/`_` characters act as wildcards, not
literals: searching "a_c" returns the message whose body is "abc" even
though "abc" does not contain the literal substring "a_c". -/
theorem searchChat_wildcard_counterexample :
    searchChatRaw wDBAbc "Alice" "a_c" none = [wMsgAbc]
    ∧ bodyContainsCI wMsgAbc.body "a_c" = false :=
  ⟨rfl, rfl⟩

/-- C3 (amended): for every search string containing no LIKE
metacharacter (`%` or `_`), `searchChat` returns exactly those of the
conversation's messages whose body is present and contains the string
as a literal substring — case-insensitively for ASCII letters,
case-sensitively otherwise — in the same descending-timestamp
projection as `getChatMessages` (same sort, same formatter, same
resolved contact name), truncated to a supplied limit. -/
theorem searchChat_literal_substring
    (db : DB) (name : String) (conv : ConversationRow) (s : String) (k : Nat)
    (hconv : findConversation db name = some conv)
    (hs : ∀ c ∈ s.data, c ≠ '%' ∧ c ≠ '_') (hk : 0 < k) :
    searchChatRaw db name s none
      = sortByTimestampDesc (db.messages.filter
          (fun m => m.conversationId == conv.id && bodyContainsCI m.body s))
    ∧ searchChatRaw db name s (some k)
      = (sortByTimestampDesc (db.messages.filter
          (fun m => m.conversationId == conv.id && bodyContainsCI m.body s))).take k
    ∧ (∀ self limit, searchChat db self name s limit
        = (searchChatRaw db name s limit).map
            (fun m => formatMessage self m (jsOrDflt (resolveContactName conv) "Unknown"))) := by
  have hpat : ("%" ++ s ++ "%").data = '%' :: (s.data ++ ['%']) := by
    rw [String.data_append, String.data_append]
    rfl
  have hfilter : ∀ m : MessageRow,
      (m.conversationId == conv.id && bodyLike m.body ("%" ++ s ++ "%"))
        = (m.conversationId == conv.id && bodyContainsCI m.body s) := by
    intro m
    cases hb : m.body with
    | none => rfl
    | some b =>
      simp only [bodyLike, bodyContainsCI, hpat]
      rw [boolEqDecide _ _ (likeMatch_infix_iff s.data b.data hs)]
  have hfeq : db.messages.filter
        (fun m => m.conversationId == conv.id && bodyLike m.body ("%" ++ s ++ "%"))
      = db.messages.filter (fun m => m.conversationId == conv.id && bodyContainsCI m.body s) :=
    List.filter_congr (fun m _ => hfilter m)
  have htruthy : jsTruthyNat (some k) = true := by simp [jsTruthyNat]; omega
  refine ⟨?_, ?_, ?_⟩
  · simp only [searchChatRaw, hconv, hfeq]
    simp [jsTruthyNat]
  · simp only [searchChatRaw, hconv, hfeq, htruthy, if_true, Option.getD_some]
  · intro self limit
    simp only [searchChat, hconv]

/-- Witness for C3 (amended): searching "B" (no wildcards, upper case)
in the database whose one message body is "abc". -/
theorem searchChat_literal_substring_witness :
    searchChatRaw wDBAbc "Alice" "B" none
      = sortByTimestampDesc (wDBAbc.messages.filter
          (fun m => m.conversationId == wAliceConv.id && bodyContainsCI m.body "B"))
    ∧ searchChatRaw wDBAbc "Alice" "B" (some 1)
      = (sortByTimestampDesc (wDBAbc.messages.filter
          (fun m => m.conversationId == wAliceConv.id && bodyContainsCI m.body "B"))).take 1
    ∧ (∀ self limit, searchChat wDBAbc self "Alice" "B" limit
        = (searchChatRaw wDBAbc "Alice" "B" limit).map
            (fun m => formatMessage self m (jsOrDflt (resolveContactName wAliceConv) "Unknown"))) :=
  searchChat_literal_substring wDBAbc "Alice" wAliceConv "B" 1 (by decide) (by decide) (by decide)

/-! ## Byte-level lemmas for the decryption primitive -/

theorem hexVal_hexDigit (n : Nat) (h : n < 16) : hexVal (hexDigit n) = some n := by
  interval_cases n <;> decide

theorem hexDecodeAux_encode (bs : List Nat) (h : ∀ b ∈ bs, b < 256) :
    hexDecodeAux ((bs.map (fun b => [hexDigit (b / 16), hexDigit (b % 16)])).flatten) = bs := by
  induction bs with
  | nil => rfl
  | cons b rest ih =>
    have hb : b < 256 := h b (List.mem_cons_self b rest)
    have h1 : b / 16 < 16 := by omega
    have h2 : b % 16 < 16 := by omega
    have hd : 16 * (b / 16) + b % 16 = b := by omega
    have ihr := ih (fun x hx => h x (List.mem_cons_of_mem b hx))
    simp [hexDecodeAux, hexVal_hexDigit _ h1, hexVal_hexDigit _ h2, hd, ihr]

theorem hexDecode_hexEncode (bs : List Nat) (h : ∀ b ∈ bs, b < 256) :
    hexDecode (hexEncode bs) = bs := by
  simpa [hexDecode, hexEncode] using hexDecodeAux_encode bs h

theorem char_toNat_lt (c : Char) : c.toNat < 1114112 := by
  rcases c.valid with h | ⟨h1, h2⟩
  · exact lt_trans h (by norm_num)
  · exact h2

theorem utf8EncodeChar_lt (c : Char) : ∀ x ∈ utf8EncodeChar c.toNat, x < 256 := by
  have hc := char_toNat_lt c
  intro x hx
  unfold utf8EncodeChar at hx
  split at hx
  · simp at hx; omega
  · split at hx
    · simp at hx; rcases hx with h | h <;> omega
    · split at hx
      · simp at hx; rcases hx with h | h | h <;> omega
      · simp at hx; rcases hx with h | h | h | h <;> omega

theorem utf8Encode_lt (s : String) : ∀ x ∈ utf8Encode s, x < 256 := by
  intro x hx
  rw [utf8Encode, List.mem_flatten] at hx
  obtain ⟨l, hl, hxl⟩ := hx
  rw [List.mem_map] at hl
  obtain ⟨c, _, rfl⟩ := hl
  exact utf8EncodeChar_lt c x hxl

theorem utf8Aux_ascii (acc b : Nat) (rest : List Nat) (h : b < 0x80) :
    utf8DecodeAux2 0 acc (b :: rest) = Char.ofNat b :: utf8DecodeAux2 0 0 rest := by
  rw [utf8DecodeAux2, if_pos h]

theorem utf8Aux_hdr2 (acc b : Nat) (rest : List Nat) (h1 : ¬ b < 0x80) (h2 : b < 0xE0) :
    utf8DecodeAux2 0 acc (b :: rest) = utf8DecodeAux2 1 (b - 0xC0) rest := by
  rw [utf8DecodeAux2, if_neg h1, if_pos h2]

theorem utf8Aux_hdr3 (acc b : Nat) (rest : List Nat) (h1 : ¬ b < 0x80) (h2 : ¬ b < 0xE0)
    (h3 : b < 0xF0) :
    utf8DecodeAux2 0 acc (b :: rest) = utf8DecodeAux2 2 (b - 0xE0) rest := by
  rw [utf8DecodeAux2, if_neg h1, if_neg h2, if_pos h3]

theorem utf8Aux_hdr4 (acc b : Nat) (rest : List Nat) (h1 : ¬ b < 0x80) (h2 : ¬ b < 0xE0)
    (h3 : ¬ b < 0xF0) :
    utf8DecodeAux2 0 acc (b :: rest) = utf8DecodeAux2 3 (b - 0xF0) rest := by
  rw [utf8DecodeAux2, if_neg h1, if_neg h2, if_neg h3]

theorem utf8Aux_contLast (acc b : Nat) (rest : List Nat) :
    utf8DecodeAux2 1 acc (b :: rest)
      = Char.ofNat (acc * 64 + (b - 0x80)) :: utf8DecodeAux2 0 0 rest := by
  rw [utf8DecodeAux2]
  simp

theorem utf8Aux_cont2 (acc b : Nat) (rest : List Nat) :
    utf8DecodeAux2 2 acc (b :: rest) = utf8DecodeAux2 1 (acc * 64 + (b - 0x80)) rest := by
  rw [utf8DecodeAux2]
  simp

theorem utf8Aux_cont3 (acc b : Nat) (rest : List Nat) :
    utf8DecodeAux2 3 acc (b :: rest) = utf8DecodeAux2 2 (acc * 64 + (b - 0x80)) rest := by
  rw [utf8DecodeAux2]
  simp

theorem utf8Aux_encodeChar (c : Char) (rest : List Nat) :
    utf8DecodeAux2 0 0 (utf8EncodeChar c.toNat ++ rest) = c :: utf8DecodeAux2 0 0 rest := by
  have hc := char_toNat_lt c
  have hofn : Char.ofNat c.toNat = c := Char.ofNat_toNat c
  by_cases h1 : c.toNat < 0x80
  · have henc : utf8EncodeChar c.toNat = [c.toNat] := by rw [utf8EncodeChar, if_pos h1]
    rw [henc, show ([c.toNat] ++ rest : List Nat) = c.toNat :: rest from rfl,
      utf8Aux_ascii _ _ _ h1, hofn]
  · by_cases h2 : c.toNat < 0x800
    · have henc : utf8EncodeChar c.toNat = [0xC0 + c.toNat / 64, 0x80 + c.toNat % 64] := by
        rw [utf8EncodeChar, if_neg h1, if_pos h2]
      have hb1 : ¬ (0xC0 + c.toNat / 64 < 0x80) := by omega
      have hb2 : 0xC0 + c.toNat / 64 < 0xE0 := by omega
      have hval : (0xC0 + c.toNat / 64 - 0xC0) * 64 + (0x80 + c.toNat % 64 - 0x80)
          = c.toNat := by omega
      rw [henc, show ([0xC0 + c.toNat / 64, 0x80 + c.toNat % 64] ++ rest : List Nat)
          = (0xC0 + c.toNat / 64) :: (0x80 + c.toNat % 64) :: rest from rfl,
        utf8Aux_hdr2 _ _ _ hb1 hb2, utf8Aux_contLast, hval, hofn]
    · by_cases h3 : c.toNat < 0x10000
      · have henc : utf8EncodeChar c.toNat
            = [0xE0 + c.toNat / 4096, 0x80 + (c.toNat / 64) % 64, 0x80 + c.toNat % 64] := by
          rw [utf8EncodeChar, if_neg h1, if_neg h2, if_pos h3]
        have hb1 : ¬ (0xE0 + c.toNat / 4096 < 0x80) := by omega
        have hb2 : ¬ (0xE0 + c.toNat / 4096 < 0xE0) := by omega
        have hb3 : 0xE0 + c.toNat / 4096 < 0xF0 := by omega
        have hval : ((0xE0 + c.toNat / 4096 - 0xE0) * 64 + (0x80 + (c.toNat / 64) % 64 - 0x80))
              * 64 + (0x80 + c.toNat % 64 - 0x80)
            = c.toNat := by
          have hdd : c.toNat / 64 / 64 = c.toNat / 4096 := by rw [Nat.div_div_eq_div_mul]
          omega
        rw [henc, show ([0xE0 + c.toNat / 4096, 0x80 + (c.toNat / 64) % 64,
              0x80 + c.toNat % 64] ++ rest : List Nat)
            = (0xE0 + c.toNat / 4096) :: (0x80 + (c.toNat / 64) % 64)
              :: (0x80 + c.toNat % 64) :: rest from rfl,
          utf8Aux_hdr3 _ _ _ hb1 hb2 hb3, utf8Aux_cont2, utf8Aux_contLast, hval, hofn]
      · have henc : utf8EncodeChar c.toNat
            = [0xF0 + c.toNat / 262144, 0x80 + (c.toNat / 4096) % 64,
               0x80 + (c.toNat / 64) % 64, 0x80 + c.toNat % 64] := by
          rw [utf8EncodeChar, if_neg h1, if_neg h2, if_neg h3]
        have hb1 : ¬ (0xF0 + c.toNat / 262144 < 0x80) := by omega
        have hb2 : ¬ (0xF0 + c.toNat / 262144 < 0xE0) := by omega
        have hb3 : ¬ (0xF0 + c.toNat / 262144 < 0xF0) := by omega
        have hval : (((0xF0 + c.toNat / 262144 - 0xF0) * 64
              + (0x80 + (c.toNat / 4096) % 64 - 0x80)) * 64
              + (0x80 + (c.toNat / 64) % 64 - 0x80)) * 64 + (0x80 + c.toNat % 64 - 0x80)
            = c.toNat := by
          have hd1 : c.toNat / 64 / 64 = c.toNat / 4096 := by rw [Nat.div_div_eq_div_mul]
          have hd2 : c.toNat / 4096 / 64 = c.toNat / 262144 := by rw [Nat.div_div_eq_div_mul]
          omega
        rw [henc, show ([0xF0 + c.toNat / 262144, 0x80 + (c.toNat / 4096) % 64,
              0x80 + (c.toNat / 64) % 64, 0x80 + c.toNat % 64] ++ rest : List Nat)
            = (0xF0 + c.toNat / 262144) :: (0x80 + (c.toNat / 4096) % 64)
              :: (0x80 + (c.toNat / 64) % 64) :: (0x80 + c.toNat % 64) :: rest from rfl,
          utf8Aux_hdr4 _ _ _ hb1 hb2 hb3, utf8Aux_cont3, utf8Aux_cont2, utf8Aux_contLast,
          hval, hofn]

theorem utf8DecodeList_encode (cs : List Char) :
    utf8DecodeList ((cs.map (fun c => utf8EncodeChar c.toNat)).flatten) = cs := by
  show utf8DecodeAux2 0 0 ((cs.map (fun c => utf8EncodeChar c.toNat)).flatten) = cs
  induction cs with
  | nil => rfl
  | cons c rest ih =>
    simp only [List.map_cons, List.flatten_cons]
    rw [utf8Aux_encodeChar, ih]

theorem utf8Decode_utf8Encode (t : String) : utf8Decode (utf8Encode t) = t := by
  show String.mk (utf8DecodeList ((t.data.map (fun c => utf8EncodeChar c.toNat)).flatten)) = t
  rw [utf8DecodeList_encode]

theorem xorBytes_lt (a : List Nat) : ∀ (b : List Nat), (∀ x ∈ a, x < 256) →
    (∀ x ∈ b, x < 256) → ∀ x ∈ xorBytes a b, x < 256 := by
  induction a with
  | nil => intro b _ _ x hx; simp [xorBytes] at hx
  | cons a0 arest ih =>
    intro b ha hb x hx
    cases b with
    | nil => simp [xorBytes] at hx
    | cons b0 brest =>
      simp only [xorBytes, List.zipWith_cons_cons, List.mem_cons] at hx
      rcases hx with rfl | hx
      · have h1 : a0 < 2 ^ 8 := ha a0 (List.mem_cons_self _ _)
        have h2 : b0 < 2 ^ 8 := hb b0 (List.mem_cons_self _ _)
        exact Nat.xor_lt_two_pow h1 h2
      · exact ih brest (fun y hy => ha y (List.mem_cons_of_mem _ hy))
          (fun y hy => hb y (List.mem_cons_of_mem _ hy)) x hx

theorem xorBytes_cancel (a : List Nat) : ∀ (p : List Nat), a.length = p.length →
    xorBytes (xorBytes a p) p = a := by
  induction a with
  | nil => intro p _; simp [xorBytes]
  | cons a0 arest ih =>
    intro p h
    cases p with
    | nil => simp at h
    | cons p0 prest =>
      simp only [xorBytes, List.zipWith_cons_cons]
      have hx : Nat.xor (Nat.xor a0 p0) p0 = a0 := Nat.xor_cancel_right p0 a0
      have hlen : arest.length = prest.length := by simpa using h
      have hrec := ih prest hlen
      simp only [xorBytes] at hrec
      rw [hx, hrec]

theorem chunks16Go_nil (fuel : Nat) : chunks16Go fuel [] = [] := by
  cases fuel <;> rfl

theorem chunks16Go_flatten (fuel : Nat) : ∀ l : List Nat, l.length ≤ fuel →
    (chunks16Go fuel l).flatten = l := by
  induction fuel with
  | zero =>
    intro l hl
    cases l with
    | nil => rfl
    | cons x xs => simp at hl
  | succ f ih =>
    intro l hl
    cases l with
    | nil => rfl
    | cons x xs =>
      simp only [List.length_cons] at hl
      rw [show chunks16Go (f + 1) (x :: xs)
          = List.take 16 (x :: xs) :: chunks16Go f (List.drop 16 (x :: xs)) from rfl]
      rw [List.flatten_cons,
        ih (List.drop 16 (x :: xs))
          (by simp only [List.length_drop, List.length_cons]; omega),
        List.take_append_drop]

theorem chunks16_flatten (l : List Nat) : (chunks16 l).flatten = l :=
  chunks16Go_flatten l.length l le_rfl

theorem chunks16_mem (l : List Nat) (c : List Nat) (hc : c ∈ chunks16 l) (x : Nat)
    (hx : x ∈ c) : x ∈ l := by
  have := List.mem_flatten.mpr ⟨c, hc, hx⟩
  rwa [chunks16_flatten] at this

theorem chunks16Go_length16 (fuel : Nat) : ∀ l : List Nat, l.length ≤ fuel →
    l.length % 16 = 0 → ∀ c ∈ chunks16Go fuel l, c.length = 16 := by
  induction fuel with
  | zero =>
    intro l hl _ c hc
    cases l with
    | nil => simp [chunks16Go] at hc
    | cons x xs => simp at hl
  | succ f ih =>
    intro l hl hm c hc
    cases l with
    | nil => simp [chunks16Go] at hc
    | cons x xs =>
      rw [show chunks16Go (f + 1) (x :: xs)
          = List.take 16 (x :: xs) :: chunks16Go f (List.drop 16 (x :: xs)) from rfl] at hc
      simp only [List.length_cons] at hl hm
      have h16 : 16 ≤ xs.length + 1 := by omega
      rcases List.mem_cons.mp hc with rfl | hc2
      · simp only [List.length_take, List.length_cons]
        omega
      · exact ih (List.drop 16 (x :: xs))
          (by simp only [List.length_drop, List.length_cons]; omega)
          (by simp only [List.length_drop, List.length_cons]; omega) c hc2

theorem chunks16_length16 (l : List Nat) (hm : l.length % 16 = 0) :
    ∀ c ∈ chunks16 l, c.length = 16 :=
  chunks16Go_length16 l.length l le_rfl hm

theorem chunks16Go_flatten_blocks (blocks : List (List Nat)) :
    ∀ fuel, blocks.flatten.length ≤ fuel → (∀ b ∈ blocks, b.length = 16) →
    chunks16Go fuel blocks.flatten = blocks := by
  induction blocks with
  | nil => intro fuel _ _; exact chunks16Go_nil fuel
  | cons b bs ih =>
    intro fuel hlen hb
    have hb16 : b.length = 16 := hb b (List.mem_cons_self _ _)
    cases fuel with
    | zero =>
      exfalso
      simp only [List.flatten_cons, List.length_append, hb16] at hlen
      omega
    | succ f =>
      obtain ⟨y, ys, rfl⟩ : ∃ y ys, b = y :: ys := by
        cases b with
        | nil => simp at hb16
        | cons y ys => exact ⟨y, ys, rfl⟩
      show chunks16Go (f + 1) ((y :: ys) ++ bs.flatten) = (y :: ys) :: bs
      rw [show ((y :: ys) ++ bs.flatten) = y :: (ys ++ bs.flatten) from rfl]
      rw [show chunks16Go (f + 1) (y :: (ys ++ bs.flatten))
          = List.take 16 (y :: (ys ++ bs.flatten))
            :: chunks16Go f (List.drop 16 (y :: (ys ++ bs.flatten))) from rfl]
      rw [show (y :: (ys ++ bs.flatten)) = (y :: ys) ++ bs.flatten from rfl]
      rw [show (16 : Nat) = (y :: ys).length from hb16.symm, List.take_left, List.drop_left]
      rw [ih f (by
          simp only [List.flatten_cons, List.length_append, hb16] at hlen
          omega)
        (fun b2 hb2 => hb b2 (List.mem_cons_of_mem _ hb2))]

theorem chunks16_flatten_blocks (blocks : List (List Nat)) (hb : ∀ b ∈ blocks, b.length = 16) :
    chunks16 blocks.flatten = blocks :=
  chunks16Go_flatten_blocks blocks blocks.flatten.length le_rfl hb

theorem flatten_length_mod16 (blocks : List (List Nat)) (h : ∀ b ∈ blocks, b.length = 16) :
    blocks.flatten.length % 16 = 0 := by
  induction blocks with
  | nil => simp
  | cons b bs ih =>
    simp only [List.flatten_cons, List.length_append]
    have h1 := h b (List.mem_cons_self _ _)
    have h2 := ih (fun x hx => h x (List.mem_cons_of_mem _ hx))
    omega

theorem cbcEncBlocks_spec (enc : List Nat → List Nat)
    (hlen : ∀ b, b.length = 16 → (∀ x ∈ b, x < 256) →
      (enc b).length = 16 ∧ ∀ x ∈ enc b, x < 256) :
    ∀ (blocks : List (List Nat)) (prev : List Nat),
      (∀ b ∈ blocks, b.length = 16 ∧ ∀ x ∈ b, x < 256) →
      prev.length = 16 → (∀ x ∈ prev, x < 256) →
      ∀ cb ∈ cbcEncBlocks enc prev blocks, cb.length = 16 ∧ ∀ x ∈ cb, x < 256 := by
  intro blocks
  induction blocks with
  | nil => intro prev _ _ _ cb hcb; simp [cbcEncBlocks] at hcb
  | cons b bs ih =>
    intro prev hblocks hp hpb cb hcb
    obtain ⟨hb16, hbb⟩ := hblocks b (List.mem_cons_self _ _)
    have hxl : (xorBytes b prev).length = 16 := by simp [xorBytes, hb16, hp]
    have hxb : ∀ x ∈ xorBytes b prev, x < 256 := xorBytes_lt b prev hbb hpb
    obtain ⟨hc16, hc256⟩ := hlen (xorBytes b prev) hxl hxb
    rw [show cbcEncBlocks enc prev (b :: bs)
        = enc (xorBytes b prev) :: cbcEncBlocks enc (enc (xorBytes b prev)) bs from rfl] at hcb
    rcases List.mem_cons.mp hcb with rfl | hcb2
    · exact ⟨hc16, hc256⟩
    · exact ih (enc (xorBytes b prev))
        (fun b2 hb2 => hblocks b2 (List.mem_cons_of_mem _ hb2)) hc16 hc256 cb hcb2

theorem cbcDecBlocks_cbcEncBlocks (enc dec : List Nat → List Nat)
    (hlen : ∀ b, b.length = 16 → (∀ x ∈ b, x < 256) →
      (enc b).length = 16 ∧ ∀ x ∈ enc b, x < 256)
    (hinv : ∀ b, b.length = 16 → (∀ x ∈ b, x < 256) → dec (enc b) = b) :
    ∀ (blocks : List (List Nat)) (prev : List Nat),
      (∀ b ∈ blocks, b.length = 16 ∧ ∀ x ∈ b, x < 256) →
      prev.length = 16 → (∀ x ∈ prev, x < 256) →
      cbcDecBlocks dec prev (cbcEncBlocks enc prev blocks) = blocks := by
  intro blocks
  induction blocks with
  | nil => intro prev _ _ _; rfl
  | cons b bs ih =>
    intro prev hblocks hp hpb
    obtain ⟨hb16, hbb⟩ := hblocks b (List.mem_cons_self _ _)
    have hxl : (xorBytes b prev).length = 16 := by simp [xorBytes, hb16, hp]
    have hxb : ∀ x ∈ xorBytes b prev, x < 256 := xorBytes_lt b prev hbb hpb
    obtain ⟨hc16, hc256⟩ := hlen (xorBytes b prev) hxl hxb
    show cbcDecBlocks dec prev
        (enc (xorBytes b prev) :: cbcEncBlocks enc (enc (xorBytes b prev)) bs) = b :: bs
    rw [show cbcDecBlocks dec prev
          (enc (xorBytes b prev) :: cbcEncBlocks enc (enc (xorBytes b prev)) bs)
        = xorBytes (dec (enc (xorBytes b prev))) prev
          :: cbcDecBlocks dec (enc (xorBytes b prev))
              (cbcEncBlocks enc (enc (xorBytes b prev)) bs) from rfl]
    rw [hinv (xorBytes b prev) hxl hxb]
    rw [xorBytes_cancel b prev (hb16.trans hp.symm)]
    rw [ih (enc (xorBytes b prev)) (fun b2 hb2 => hblocks b2 (List.mem_cons_of_mem _ hb2))
      hc16 hc256]

theorem pkcs7pad_length_mod (data : List Nat) : (pkcs7pad 16 data).length % 16 = 0 := by
  simp only [pkcs7pad, List.length_append, List.length_replicate]
  omega

theorem pkcs7pad_lt (data : List Nat) (h : ∀ x ∈ data, x < 256) :
    ∀ x ∈ pkcs7pad 16 data, x < 256 := by
  intro x hx
  simp only [pkcs7pad, List.mem_append] at hx
  rcases hx with hx | hx
  · exact h x hx
  · have := List.eq_of_mem_replicate hx
    omega

theorem pkcs7unpad_pkcs7pad (data : List Nat) : pkcs7unpad (pkcs7pad 16 data) = some data := by
  have hk1 : 1 ≤ 16 - data.length % 16 := by omega
  have hk16 : 16 - data.length % 16 ≤ 16 := by omega
  have hrepl : List.replicate (16 - data.length % 16) (16 - data.length % 16)
      = List.replicate (16 - data.length % 16 - 1) (16 - data.length % 16)
        ++ [16 - data.length % 16] := by
    rw [← List.replicate_succ']
    congr 1
    omega
  have hpad0 : pkcs7pad 16 data
      = data ++ List.replicate (16 - data.length % 16) (16 - data.length % 16) := rfl
  have hpadEq : pkcs7pad 16 data
      = (data ++ List.replicate (16 - data.length % 16 - 1) (16 - data.length % 16))
        ++ [16 - data.length % 16] := by
    rw [hpad0, hrepl, ← List.append_assoc]
  have hlast : (pkcs7pad 16 data).getLast? = some (16 - data.length % 16) := by
    rw [hpadEq]
    exact List.getLast?_concat _
  have hlen : (pkcs7pad 16 data).length = data.length + (16 - data.length % 16) := by
    simp [pkcs7pad, List.length_append, List.length_replicate]
  have hdropEq : (pkcs7pad 16 data).drop
        ((pkcs7pad 16 data).length - (16 - data.length % 16))
      = List.replicate (16 - data.length % 16) (16 - data.length % 16) := by
    rw [hlen, show data.length + (16 - data.length % 16) - (16 - data.length % 16)
        = data.length from by omega]
    rw [show pkcs7pad 16 data
        = data ++ List.replicate (16 - data.length % 16) (16 - data.length % 16) from rfl]
    exact List.drop_left _ _
  have hall : (List.replicate (16 - data.length % 16) (16 - data.length % 16)).all
      (fun x => x == 16 - data.length % 16) = true := by
    simp [List.all_eq_true, List.mem_replicate]
  have htakeEq : (pkcs7pad 16 data).take
        ((pkcs7pad 16 data).length - (16 - data.length % 16)) = data := by
    rw [hlen, show data.length + (16 - data.length % 16) - (16 - data.length % 16)
        = data.length from by omega]
    rw [show pkcs7pad 16 data
        = data ++ List.replicate (16 - data.length % 16) (16 - data.length % 16) from rfl]
    exact List.take_left _ _
  have hklen : 16 - data.length % 16 ≤ (pkcs7pad 16 data).length := by
    rw [hlen]; omega
  simp only [pkcs7unpad, hlast]
  rw [if_pos ⟨hk1, hk16, hklen, by rw [hdropEq]; exact hall⟩, htakeEq]

theorem cbc_pipeline (enc dec : List Nat → List Nat)
    (hlen : ∀ b, b.length = 16 → (∀ x ∈ b, x < 256) →
      (enc b).length = 16 ∧ ∀ x ∈ enc b, x < 256)
    (hinv : ∀ b, b.length = 16 → (∀ x ∈ b, x < 256) → dec (enc b) = b)
    (pt : List Nat) (hpt : ∀ x ∈ pt, x < 256) :
    (∀ x ∈ (cbcEncBlocks enc iv16 (chunks16 (pkcs7pad 16 pt))).flatten, x < 256)
    ∧ ((cbcEncBlocks enc iv16 (chunks16 (pkcs7pad 16 pt))).flatten).length % 16 = 0
    ∧ pkcs7unpad ((cbcDecBlocks dec iv16 (chunks16
        ((cbcEncBlocks enc iv16 (chunks16 (pkcs7pad 16 pt))).flatten))).flatten) = some pt := by
  have hiv_len : iv16.length = 16 := by simp [iv16]
  have hiv_b : ∀ x ∈ iv16, x < 256 := by
    intro x hx
    simp only [iv16, List.mem_replicate] at hx
    omega
  have hpadmod := pkcs7pad_length_mod pt
  have hpadb := pkcs7pad_lt pt hpt
  have hblocks : ∀ b ∈ chunks16 (pkcs7pad 16 pt), b.length = 16 ∧ ∀ x ∈ b, x < 256 := by
    intro b hb
    exact ⟨chunks16_length16 _ hpadmod b hb, fun x hx => hpadb x (chunks16_mem _ b hb x hx)⟩
  have hcb : ∀ cb ∈ cbcEncBlocks enc iv16 (chunks16 (pkcs7pad 16 pt)),
      cb.length = 16 ∧ ∀ x ∈ cb, x < 256 :=
    cbcEncBlocks_spec enc hlen _ iv16 hblocks hiv_len hiv_b
  refine ⟨?_, ?_, ?_⟩
  · intro x hx
    rw [List.mem_flatten] at hx
    obtain ⟨cb, hcb2, hx2⟩ := hx
    exact (hcb cb hcb2).2 x hx2
  · exact flatten_length_mod16 _ (fun b hb => (hcb b hb).1)
  · rw [chunks16_flatten_blocks _ (fun b hb => (hcb b hb).1)]
    rw [cbcDecBlocks_cbcEncBlocks enc dec hlen hinv _ iv16 hblocks hiv_len hiv_b]
    rw [chunks16_flatten]
    exact pkcs7unpad_pkcs7pad pt

/-! ## C2: decryptKey recovers reference-encrypted plaintexts -/

/-- C2: for every password and plaintext string, `decryptKey` applied to
the hex blob consisting of the 3-byte "v10" tag followed by the
AES-128-CBC (PKCS-padded) encryption of the plaintext's UTF-8 bytes
under the PBKDF2-derived key (salt "saltysalt", 1003 iterations, SHA-1,
16 bytes) and the 16-space IV recovers exactly the plaintext; and for
any blob whose first 3 bytes are not the "v10" tag it fails with the
malformed-key-blob error.  The AES block permutation pair is the
external primitive: the hypothesis says it is a length-preserving,
byte-valued permutation pair on 16-byte blocks. -/
theorem decryptKey_roundtrip
    (cp : CryptoPrims) (password plaintext : String) (blob : String)
    (hprim : ∀ key b, b.length = 16 → (∀ x ∈ b, x < 256) →
        (cp.aes128Enc key b).length = 16 ∧ (∀ x ∈ cp.aes128Enc key b, x < 256) ∧
        cp.aes128Dec key (cp.aes128Enc key b) = b) :
    decryptKey cp password (referenceEncryptBlob cp password plaintext) = Except.ok plaintext
    ∧ ((hexDecode blob).take 3 ≠ v10Tag →
        decryptKey cp password blob = Except.error "Encrypted key does not start with v10") := by
  constructor
  · have hlen : ∀ b, b.length = 16 → (∀ x ∈ b, x < 256) →
        (cp.aes128Enc (cp.pbkdf2Sync password saltBytes 1003 16 "sha1") b).length = 16
        ∧ ∀ x ∈ cp.aes128Enc (cp.pbkdf2Sync password saltBytes 1003 16 "sha1") b, x < 256 :=
      fun b h hb => ⟨(hprim _ b h hb).1, (hprim _ b h hb).2.1⟩
    have hinv : ∀ b, b.length = 16 → (∀ x ∈ b, x < 256) →
        cp.aes128Dec (cp.pbkdf2Sync password saltBytes 1003 16 "sha1")
          (cp.aes128Enc (cp.pbkdf2Sync password saltBytes 1003 16 "sha1") b) = b :=
      fun b h hb => (hprim _ b h hb).2.2
    obtain ⟨hctb, hctmod, hpipe⟩ := cbc_pipeline
      (cp.aes128Enc (cp.pbkdf2Sync password saltBytes 1003 16 "sha1"))
      (cp.aes128Dec (cp.pbkdf2Sync password saltBytes 1003 16 "sha1"))
      hlen hinv (utf8Encode plaintext) (utf8Encode_lt plaintext)
    have hv10b : ∀ x ∈ v10Tag, x < 256 := by
      intro x hx
      have : x = 0x76 ∨ x = 0x31 ∨ x = 0x30 := by simpa [v10Tag] using hx
      omega
    have hblobdec : hexDecode (referenceEncryptBlob cp password plaintext)
        = v10Tag ++ (cbcEncBlocks (cp.aes128Enc (cp.pbkdf2Sync password saltBytes 1003 16 "sha1"))
            iv16 (chunks16 (pkcs7pad 16 (utf8Encode plaintext)))).flatten := by
      rw [show referenceEncryptBlob cp password plaintext
          = hexEncode (v10Tag
              ++ (cbcEncBlocks (cp.aes128Enc (cp.pbkdf2Sync password saltBytes 1003 16 "sha1"))
                  iv16 (chunks16 (pkcs7pad 16 (utf8Encode plaintext)))).flatten) from rfl]
      apply hexDecode_hexEncode
      intro x hx
      rcases List.mem_append.mp hx with h | h
      · exact hv10b x h
      · exact hctb x h
    have htke : (v10Tag
        ++ (cbcEncBlocks (cp.aes128Enc (cp.pbkdf2Sync password saltBytes 1003 16 "sha1"))
            iv16 (chunks16 (pkcs7pad 16 (utf8Encode plaintext)))).flatten).take 3 = v10Tag := by
      rw [show (3 : Nat) = v10Tag.length from rfl]
      exact List.take_left _ _
    have hdrp : (v10Tag
        ++ (cbcEncBlocks (cp.aes128Enc (cp.pbkdf2Sync password saltBytes 1003 16 "sha1"))
            iv16 (chunks16 (pkcs7pad 16 (utf8Encode plaintext)))).flatten).drop 3
        = (cbcEncBlocks (cp.aes128Enc (cp.pbkdf2Sync password saltBytes 1003 16 "sha1"))
            iv16 (chunks16 (pkcs7pad 16 (utf8Encode plaintext)))).flatten := by
      rw [show (3 : Nat) = v10Tag.length from rfl]
      exact List.drop_left _ _
    simp only [decryptKey, hblobdec, htke, hdrp, hctmod, hpipe, utf8Decode_utf8Encode,
      ne_eq, not_true_eq_false, not_false_eq_true, if_false, if_true, ite_false, ite_true]
  · intro h
    simp only [decryptKey]
    rw [if_pos h]

/-- Witness for C2: with the identity block-cipher primitives and the
plaintext "hé€🙂" (exercising 1-, 2-, 3- and 4-byte UTF-8 characters),
the reference blob decrypts back to the plaintext, and the tagless blob
"00ff" is rejected with the malformed-key-blob error. -/
theorem decryptKey_roundtrip_witness :
    decryptKey cpId "pw" (referenceEncryptBlob cpId "pw" "hé€🙂") = Except.ok "hé€🙂"
    ∧ decryptKey cpId "pw" "00ff" = Except.error "Encrypted key does not start with v10" :=
  ⟨(decryptKey_roundtrip cpId "pw" "hé€🙂" "00ff"
      (fun _ b h hb => ⟨h, hb, rfl⟩)).1,
   (decryptKey_roundtrip cpId "pw" "hé€🙂" "00ff"
      (fun _ b h hb => ⟨h, hb, rfl⟩)).2 (by decide)⟩

end SignalSpec
